import Mathlib

/-!
# Verification of the agent-bridge protocol core

A shallow embedding of the agent-bridge repository (a WebSocket debug bridge
between a browser app and an external agent) together with proofs about it.

The embedding covers:
* the command executor and element target resolution
  (`src/packages/browser/src/commands/executor.ts`),
* the UI tree builder and stable-id assignment
  (`src/packages/browser/src/telemetry/ui-tree.ts`),
* the session relay server (`src/packages/cli/src/server/websocket-server.ts`),
* the reconnecting client connection manager
  (`src/packages/browser/src/bridge.ts`),
* the DOM mutation batcher and the network hook
  (`src/packages/browser/src/telemetry/dom-observer.ts`,
  `network-hook.ts`).

DOM, CSS-engine and clock behaviour that the code merely calls into is
modelled explicitly: a document is a flat list of elements in deep traversal
order (light-DOM elements carry `inShadow = false`, elements inside open
shadow roots carry `inShadow = true`), attribute selectors are interpreted by
attribute lookup, and free-form CSS selectors / structural CSS paths are
abstract functions carried by the `Dom` value.  Element identity is the `eid`
tag, playing the role of JavaScript object identity.  JavaScript strings are
modelled by `String`; `substring`/`charCodeAt` count Lean characters where the
source counts UTF-16 units (identical on the ASCII data the repository
manipulates).
-/

/-- Test that returns true when the character list `p` is an initial segment of
`s`; model of the JavaScript `String.prototype.startsWith` test. -/
def chPfx : List Char → List Char → Bool
  | [], _ => true
  | _ :: _, [] => false
  | a :: as, b :: bs => a == b && chPfx as bs

/-- Test that returns true when `n` occurs contiguously inside a character
list; model of the JavaScript `String.prototype.includes` test. -/
def chSub (needle : List Char) : List Char → Bool
  | [] => chPfx needle []
  | c :: cs => chPfx needle (c :: cs) || chSub needle cs

/-- JavaScript `s.startsWith(p)`. -/
def strStarts (s p : String) : Bool := chPfx p.toList s.toList

/-- JavaScript `s.includes(sub)`. -/
def strIncludes (s sub : String) : Bool := chSub sub.toList s.toList

/-- JavaScript `s.substring(0, n)`. -/
def takeChars (n : Nat) (s : String) : String := String.mk (s.toList.take n)

/-- JavaScript `s.trim()`: strip leading and trailing whitespace (written
over character lists so that kernel evaluation can compute it). -/
def jsTrim (s : String) : String :=
  String.mk
    (((s.toList.dropWhile Char.isWhitespace).reverse.dropWhile
      Char.isWhitespace).reverse)

/-- Wrap an integer to the signed 32-bit range; JavaScript `x | 0`. -/
def toInt32 (n : Int) : Int := (n + 2147483648).emod 4294967296 - 2147483648

/-- One step of the stable-id hash loop from `UiTreeBuilder.generateStableId`:
`hash = (hash << 5) - hash + charCode; hash |= 0`.  The shift itself is a
32-bit operation in JavaScript, so it wraps before the subtraction. -/
def hashStep (h : Int) (c : Nat) : Int := toInt32 (toInt32 (h * 32) - h + c)

/-- The full stable-id hash over a character list. -/
def jsHash (s : List Char) : Int := s.foldl (fun h c => hashStep h c.toNat) 0

/-- Digit character for base-36 printing (0-9 then a-z). -/
def digit36 (d : Nat) : Char := Char.ofNat (if d < 10 then 48 + d else 87 + d)

/-- Fuelled base-36 digit emission (most significant digit first). -/
def toBase36Aux : Nat → Nat → List Char
  | 0, _ => []
  | _ + 1, 0 => []
  | fuel + 1, n + 1 => toBase36Aux fuel ((n + 1) / 36) ++ [digit36 ((n + 1) % 36)]

/-- JavaScript `n.toString(36)` for a non-negative integer `n`. -/
def toBase36 (n : Nat) : String :=
  if n = 0 then "0" else String.mk (toBase36Aux (n + 1) n)

/-- JavaScript truthiness filter on an optional string: `null`, `undefined`
and the empty string are falsy. -/
def truthyOpt : Option String → Option String
  | some s => if s = "" then none else some s
  | none => none

/-- One DOM element.  `eid` is the identity tag (JavaScript object identity);
`inShadow` is true for elements living inside an open shadow root; `attrs` is
the attribute map; `textContent`, `placeholder`, `value` and the two computed
style fields model the corresponding DOM properties read by the source. -/
structure Elem where
  eid : Nat
  tag : String
  inShadow : Bool := false
  attrs : List (String × String) := []
  textContent : String := ""
  placeholder : Option String := none
  value : String := ""
  styleDisplay : String := "block"
  styleVisibility : String := "visible"
deriving Repr, DecidableEq

/-- Model of `el.getAttribute(name)`. -/
def getAttr (e : Elem) (name : String) : Option String :=
  (e.attrs.find? (fun p => p.1 == name)).map (fun p => p.2)

/-- Model of `el.setAttribute(name, v)`: the attribute map afterwards binds `name` to
`v` and leaves every other attribute unchanged. -/
def setAttr (e : Elem) (name v : String) : Elem :=
  { e with attrs := (name, v) :: e.attrs.filter (fun p => p.1 != name) }

/-- The document: elements listed in deep traversal order, plus the two
external capabilities the executor calls into — the CSS engine for free-form
selectors (`selMatches`) and the structural CSS path builder (`cssPathOf`,
modelling `UiTreeBuilder.cssPath`, which walks the real element tree). -/
structure Dom where
  elems : List Elem
  selMatches : String → Elem → Bool := fun _ _ => false
  cssPathOf : Elem → String := fun _ => ""

/-- Model of `document.querySelector`: first light-DOM element satisfying `p`. -/
def docQuery (d : Dom) (p : Elem → Bool) : Option Elem :=
  d.elems.find? (fun e => !e.inShadow && p e)

/-- Model of `CommandExecutor.deepQuerySelectorAll`: all matches, light DOM first
(the source queries the document root before recursing into shadow roots). -/
def deepAll (d : Dom) (p : Elem → Bool) : List Elem :=
  d.elems.filter (fun e => !e.inShadow && p e) ++
    d.elems.filter (fun e => e.inShadow && p e)

/-- Model of `CommandExecutor.deepQuerySelector`: the document query first, then the
first deep match. -/
def deepQuery (d : Dom) (p : Elem → Bool) : Option Elem :=
  match docQuery d p with
  | some el => some el
  | none => (deepAll d p).head?

/-- The stableId branch of `CommandExecutor.resolveTarget`: the persisted
`data-debug-bridge-id` attribute (deep), then `data-testid` / `id` in the
light DOM, then `data-testid` / `#id` through shadow roots. -/
def stableLookup (d : Dom) (sid : String) : Option Elem :=
  match deepQuery d (fun e => getAttr e "data-debug-bridge-id" == some sid) with
  | some el => some el
  | none =>
    match docQuery d (fun e => getAttr e "data-testid" == some sid) with
    | some el => some el
    | none =>
      match docQuery d (fun e => getAttr e "id" == some sid) with
      | some el => some el
      | none =>
        match deepQuery d (fun e => getAttr e "data-testid" == some sid) with
        | some el => some el
        | none => deepQuery d (fun e => getAttr e "id" == some sid)

/-- The selector branch of `resolveTarget`: a direct CSS query, then the
shadow-traversing query. -/
def selLookup (d : Dom) (sel : String) : Option Elem :=
  match docQuery d (d.selMatches sel) with
  | some el => some el
  | none => deepQuery d (d.selMatches sel)

/-- The candidate set of the text branch:
`button, a, [role="button"], input`. -/
def textCandidateSel (e : Elem) : Bool :=
  e.tag == "button" || e.tag == "a" ||
    getAttr e "role" == some "button" || e.tag == "input"

/-- The text branch of `resolveTarget`: first deep-order candidate whose
`textContent` (or, when that is empty, `placeholder`) contains the query. -/
def textLookup (d : Dom) (tx : String) : Option Elem :=
  (deepAll d textCandidateSel).find? (fun e =>
    match (if e.textContent != "" then some e.textContent else e.placeholder) with
    | some s => strIncludes s tx
    | none => false)

/-- An `ElementTarget` descriptor. -/
structure Target where
  stableId : Option String := none
  selector : Option String := none
  text : Option String := none
deriving Repr, DecidableEq

/-- A thrown JavaScript value as the executor's catch block sees it: the
optional `code` and `message` fields. -/
structure JsErr where
  code : Option String := none
  message : Option String := none
deriving Repr, DecidableEq

/-- The error object `resolveTarget` throws when every provided field is
exhausted. -/
def errTargetNotFound : JsErr :=
  { code := some "TARGET_NOT_FOUND", message := some "Not found" }

/-- The stableId stage of `resolveTarget` (skipped when the field is absent
or empty, mirroring the `if (target.stableId)` truthiness test). -/
def optStable (d : Dom) (t : Target) : Option Elem :=
  match truthyOpt t.stableId with
  | some sid => stableLookup d sid
  | none => none

/-- The selector stage of `resolveTarget`. -/
def optSel (d : Dom) (t : Target) : Option Elem :=
  match truthyOpt t.selector with
  | some sel => selLookup d sel
  | none => none

/-- The text stage of `resolveTarget`. -/
def optText (d : Dom) (t : Target) : Option Elem :=
  match truthyOpt t.text with
  | some tx => textLookup d tx
  | none => none

/-- Model of `CommandExecutor.resolveTarget`: stableId, then selector, then text, each
stage consulted only when every earlier stage found nothing; exhaustion
throws `TARGET_NOT_FOUND`. -/
def resolveTarget (d : Dom) (t : Target) : Except JsErr Elem :=
  match optStable d t with
  | some el => .ok el
  | none =>
    match optSel d t with
    | some el => .ok el
    | none =>
      match optText d t with
      | some el => .ok el
      | none => .error errTargetNotFound

/-- The `INTERACTIVE_SELECTORS` set of `UiTreeBuilder`:
`a[href], button, input, select, textarea`, the interactive ARIA roles, and
`[tabindex]` / `[onclick]` presence. -/
def interactiveSel (e : Elem) : Bool :=
  (e.tag == "a" && (getAttr e "href").isSome) ||
    e.tag == "button" || e.tag == "input" || e.tag == "select" ||
    e.tag == "textarea" ||
    getAttr e "role" == some "button" || getAttr e "role" == some "link" ||
    getAttr e "role" == some "menuitem" || getAttr e "role" == some "tab" ||
    getAttr e "role" == some "checkbox" || getAttr e "role" == some "radio" ||
    (getAttr e "tabindex").isSome || (getAttr e "onclick").isSome

/-- Model of `UiTreeBuilder.generateStableId`: `data-testid` when truthy, else a
non-auto-generated `id`, else a hash of role plus the first 20 characters of
text, else the sanitized structural CSS path. -/
def generateStableId (cssPathOf : Elem → String) (e : Elem) : String :=
  match truthyOpt (getAttr e "data-testid") with
  | some t => t
  | none =>
    let id := (getAttr e "id").getD ""
    if id != "" && !(strStarts id ":") then id
    else
      let role :=
        match truthyOpt (getAttr e "role") with
        | some r => r
        | none => e.tag
      let text := takeChars 20 (jsTrim e.textContent)
      if text != "" then
        role ++ "-" ++ toBase36 (jsHash text.toList).natAbs
      else
        takeChars 50 (String.mk ((cssPathOf e).toList.map
          (fun c => if c.isAlpha || c.isDigit then c else Char.ofNat 45)))

/-- Model of the id choice `getStableId?.(el) ?? this.generateStableId(el)` from
`UiTreeBuilder.buildItem`: a caller-supplied id function wins when it returns
a non-null value (even the empty string, `??` being a nullish test). -/
def computeStableId (cssPathOf : Elem → String)
    (getSid : Option (Elem → Option String)) (e : Elem) : String :=
  match getSid with
  | some f =>
    match f e with
    | some s => s
    | none => generateStableId cssPathOf e
  | none => generateStableId cssPathOf e

/-- Model of `UiTreeBuilder.getVisibleText`. -/
def getVisibleText (e : Elem) : String :=
  if e.tag == "input" || e.tag == "textarea" then
    if e.value != "" then e.value else e.placeholder.getD ""
  else takeChars 100 (jsTrim e.textContent)

/-- One `UiTreeItem` snapshot as built by `UiTreeBuilder.buildItem`. -/
structure UiTreeItemM where
  stableId : String
  selector : String
  role : String
  text : Option String
  label : Option String
  disabled : Bool
  visible : Bool
deriving Repr, DecidableEq

/-- Model of `UiTreeBuilder.buildItem`, minus the attribute persistence side effect
(carried separately by `uiTreeBuildDom`). -/
def buildItem (cssPathOf : Elem → String)
    (getSid : Option (Elem → Option String)) (e : Elem) : UiTreeItemM :=
  { stableId := computeStableId cssPathOf getSid e,
    selector := cssPathOf e,
    role := (getAttr e "role").getD e.tag,
    text := (if getVisibleText e != "" then some (getVisibleText e) else none),
    label :=
      match getAttr e "aria-label" with
      | some l => some l
      | none => getAttr e "title",
    disabled := (getAttr e "disabled").isSome ||
      getAttr e "aria-disabled" == some "true",
    visible := e.styleDisplay != "none" && e.styleVisibility != "hidden" }

/-- Value half of `UiTreeBuilder.build`: each interactive element (deep
traversal order, light DOM first) paired with the item built from it. -/
def uiTreeBuildPairs (getSid : Option (Elem → Option String)) (d : Dom) :
    List (Elem × UiTreeItemM) :=
  (deepAll d interactiveSel).map (fun e => (e, buildItem d.cssPathOf getSid e))

/-- Side-effect half of `UiTreeBuilder.build`: every interactive element gets
its computed stable id persisted in the `data-debug-bridge-id` attribute. -/
def uiTreeBuildDom (getSid : Option (Elem → Option String)) (d : Dom) : Dom :=
  { d with
    elems := d.elems.map (fun e =>
      if interactiveSel e then
        setAttr e "data-debug-bridge-id" (computeStableId d.cssPathOf getSid e)
      else e) }

/-- The items sent in a `ui_tree` message. -/
def uiTreeItems (getSid : Option (Elem → Option String)) (d : Dom) :
    List UiTreeItemM :=
  (uiTreeBuildPairs getSid d).map (fun p => p.2)

/-- A message the command executor hands to `send`; fields not bearing on
the claims (payload bodies) are elided. -/
inductive ExecMsg where
  | commandResult (requestId : String) (requestType : String) (success : Bool)
      (errorCode : Option String) (duration : Int)
  | uiTree (requestId : String) (items : List UiTreeItemM)
  | domSnapshot (requestId : String)
  | screenshot (requestId : String) (hasData : Bool)
  | stateUpdate (scope : String)
deriving Repr, DecidableEq

/-- The `CommandMessage` payloads dispatched by `CommandExecutor.execute`;
`unknownCmd` is a frame whose `type` hits the `default` branch. -/
inductive Cmd where
  | click (target : Target)
  | typeText (target : Target) (text : String)
  | navigate (url : String)
  | evaluate (code : String)
  | scroll (x y : Int)
  | hover (target : Target)
  | selectOpt (target : Target)
  | focus (target : Target)
  | requestUiTree
  | requestDomSnapshot
  | requestScreenshot
  | requestState (scope : Option String)
  | unknownCmd (t : String)
deriving Repr, DecidableEq

/-- The wire `type` string of a command, used as `requestType`. -/
def cmdTypeName : Cmd → String
  | .click _ => "click"
  | .typeText _ _ => "type"
  | .navigate _ => "navigate"
  | .evaluate _ => "evaluate"
  | .scroll _ _ => "scroll"
  | .hover _ => "hover"
  | .selectOpt _ => "select"
  | .focus _ => "focus"
  | .requestUiTree => "request_ui_tree"
  | .requestDomSnapshot => "request_dom_snapshot"
  | .requestScreenshot => "request_screenshot"
  | .requestState _ => "request_state"
  | .unknownCmd t => t

/-- The execution environment: the document, the config flags the executor
reads, and the outcomes of the external effects it invokes.  `elapsed` is
`Math.round(performance.now() - start)`; `getCustomState` maps each custom
scope name to the JavaScript truthiness of its value. -/
structure ExecEnv where
  dom : Dom
  enableEval : Bool := false
  getStableId : Option (Elem → Option String) := none
  getCustomState : Option (List (String × Bool)) := none
  evalOutcome : Except JsErr Unit := .ok ()
  html2canvasAvailable : Bool := false
  captureOutcome : Except String Unit := .ok ()
  elapsed : Int := 0

/-- The scope keys of `CommandExecutor.getBrowserState`; each maps to an
object literal, hence is always truthy. -/
def browserStateScopes : List String :=
  ["cookies", "localStorage", "sessionStorage", "location", "navigator",
    "screen", "viewport"]

/-- Lookup in the custom-state record. -/
def lookupStr (cs : List (String × Bool)) (k : String) : Option Bool :=
  (cs.find? (fun p => p.1 == k)).map (fun p => p.2)

/-- Custom-state lookup through the optional `getCustomState` config hook. -/
def lookupCustom (env : ExecEnv) (scope : String) : Option Bool :=
  match env.getCustomState with
  | some cs => lookupStr cs scope
  | none => none

/-- The tail of `execute`: one `command_result` carrying the outcome of the
guarded `try` block. -/
def finishResult (requestId tname : String) (elapsed : Int) :
    Except JsErr Unit → List ExecMsg
  | .ok _ => [.commandResult requestId tname true none elapsed]
  | .error e =>
    [.commandResult requestId tname false (some (e.code.getD "UNKNOWN_ERROR"))
      elapsed]

/-- Outcome of a handler that only resolves its target and then dispatches
synthetic events (click / type / hover / select / focus). -/
def targetOutcome (env : ExecEnv) (t : Target) : Except JsErr Unit :=
  match resolveTarget env.dom t with
  | .ok _ => .ok ()
  | .error e => .error e

/-- Model of `CommandExecutor.captureScreenshot`: with `html2canvas` present a
successful capture sends a `screenshot`; a raised capture error is caught and
sent as a `command_result` with code `SCREENSHOT_FAILED` and duration 0;
without `html2canvas` a `screenshot` with empty data is sent. -/
def captureScreenshotMsgs (env : ExecEnv) (requestId : String) : List ExecMsg :=
  if env.html2canvasAvailable then
    match env.captureOutcome with
    | .ok _ => [.screenshot requestId true]
    | .error _ =>
      [.commandResult requestId "request_screenshot" false
        (some "SCREENSHOT_FAILED") 0]
  else [.screenshot requestId false]

/-- The all-scopes arm of the `request_state` branch: a `state_update` per
built-in scope, then one per custom scope (no truthiness test there). -/
def requestAllState (env : ExecEnv) : List ExecMsg :=
  browserStateScopes.map ExecMsg.stateUpdate ++
    (match env.getCustomState with
     | some cs => cs.map (fun p => ExecMsg.stateUpdate p.1)
     | none => [])

/-- Model of `CommandExecutor.execute` as the list of messages it sends for one
inbound command.  The four `request_*` branches return before the final
`command_result` send; every other branch runs inside the `try` and ends in
exactly one `command_result` via `finishResult`. -/
def execute (env : ExecEnv) (requestId : String) (cmd : Cmd) : List ExecMsg :=
  match cmd with
  | .click t => finishResult requestId "click" env.elapsed (targetOutcome env t)
  | .typeText t _ =>
    finishResult requestId "type" env.elapsed (targetOutcome env t)
  | .navigate _ => finishResult requestId "navigate" env.elapsed (.ok ())
  | .evaluate _ =>
    if !env.enableEval then
      finishResult requestId "evaluate" env.elapsed
        (.error { code := some "EVAL_DISABLED", message := some "Eval disabled" })
    else finishResult requestId "evaluate" env.elapsed env.evalOutcome
  | .scroll _ _ => finishResult requestId "scroll" env.elapsed (.ok ())
  | .hover t => finishResult requestId "hover" env.elapsed (targetOutcome env t)
  | .selectOpt t =>
    finishResult requestId "select" env.elapsed (targetOutcome env t)
  | .focus t => finishResult requestId "focus" env.elapsed (targetOutcome env t)
  | .requestUiTree => [.uiTree requestId (uiTreeItems env.getStableId env.dom)]
  | .requestDomSnapshot => [.domSnapshot requestId]
  | .requestScreenshot => captureScreenshotMsgs env requestId
  | .requestState scope =>
    match scope with
    | some s =>
      if s == "" then requestAllState env
      else
        (if browserStateScopes.contains s then [ExecMsg.stateUpdate s] else [])
          ++
          (match env.getCustomState with
           | some cs =>
             match lookupStr cs s with
             | some truthy => if truthy then [ExecMsg.stateUpdate s] else []
             | none => []
           | none => [])
    | none => requestAllState env
  | .unknownCmd t =>
    finishResult requestId t env.elapsed
      (.error { code := some "INVALID_COMMAND", message := some "Unknown" })

/-- Recognizer for `command_result` messages. -/
def isCmdResult : ExecMsg → Bool
  | .commandResult _ _ _ _ _ => true
  | _ => false

/-- Number of `command_result` messages in an output batch. -/
def countResults (ms : List ExecMsg) : Nat := ms.countP isCmdResult

/-- Commands handled inside the `try` block (everything except the four
early-returning `request_*` types). -/
def plainCmd : Cmd → Bool
  | .requestUiTree => false
  | .requestDomSnapshot => false
  | .requestScreenshot => false
  | .requestState _ => false
  | _ => true

/-- Whether `captureScreenshot` takes its catch path. -/
def captureFails (env : ExecEnv) : Bool :=
  env.html2canvasAvailable &&
    (match env.captureOutcome with
     | .error _ => true
     | .ok _ => false)

/-- The closed `ErrorCode` union from
`src/packages/types/src/messages/results.ts`. -/
def errorCodeEnum : List String :=
  ["TARGET_NOT_FOUND", "TARGET_NOT_VISIBLE", "TARGET_DISABLED", "TIMEOUT",
    "EVAL_DISABLED", "EVAL_ERROR", "NAVIGATION_FAILED", "INVALID_COMMAND",
    "UNKNOWN_ERROR"]

/-- A connection role at the relay. -/
inductive Role where
  | app
  | agent
deriving Repr, DecidableEq

/-- Model of the role flip in the relay message handler: an app sender
targets agents and an agent sender targets apps. -/
def oppositeRole (r : Role) : Role :=
  if r == Role.app then Role.agent else Role.app

/-- One registered relay client: the socket identity (the `Map` key), role,
session, and whether `ws.readyState === WebSocket.OPEN`. -/
structure RClient where
  wsId : Nat
  role : Role
  sessionId : String
  openConn : Bool
deriving Repr, DecidableEq

/-- Model of `broadcastToRole` from the relay: deliver `msg` to every client of the
given role and session, skipping `excl` and non-open sockets; returns the
`(socket, frame)` deliveries performed. -/
def broadcastToRole (clients : List RClient) (sessionId : String) (role : Role)
    (msg : String) (excl : Option Nat) : List (Nat × String) :=
  (clients.filter (fun c =>
      c.sessionId == sessionId && c.role == role &&
        !(excl == some c.wsId) && c.openConn)).map
    (fun c => (c.wsId, msg))

/-- The relay inbound-message handler: JSON parse failure is swallowed;
on success the raw frame is rebroadcast to the opposite role of the sender's
session, excluding the sender.  The CLI display callbacks perform no client
delivery and are elided. -/
def relayHandleMessage (clients : List RClient) (senderWs : Nat)
    (frame : String) (parseOk : Bool) : List (Nat × String) :=
  if !parseOk then []
  else
    match clients.find? (fun c => c.wsId == senderWs) with
    | none => []
    | some sender =>
      broadcastToRole clients sender.sessionId (oppositeRole sender.role) frame
        (some senderWs)

/-- The query parameters of an incoming relay connection
(`url.searchParams.get` yields `none` for an absent parameter). -/
structure ConnReq where
  sessionId : Option String := none
  role : Option String := none
  appId : Option String := none
deriving Repr, DecidableEq

/-- Outcome of the relay's `connection` handler. -/
inductive ConnOutcome where
  | closed (code : Nat) (reason : String)
  | accepted (clients : List RClient)
deriving Repr, DecidableEq

/-- The relay connection handler: a `sessionId` differing from
the configured session closes the socket with code 4000; any other connection
is registered, its role defaulting to `app` unless the parameter is exactly
`agent`. -/
def relayHandleConnection (cfgSession : String) (clients : List RClient)
    (req : ConnReq) (wsId : Nat) : ConnOutcome :=
  if req.sessionId != some cfgSession then .closed 4000 "Invalid session"
  else
    let clientRole := if req.role == some "agent" then Role.agent else Role.app
    .accepted (clients ++
      [{ wsId := wsId, role := clientRole, sessionId := cfgSession,
         openConn := true }])

/-- The reconnect configuration slice of the resolved bridge config. -/
structure ReconnectCfg where
  autoReconnect : Bool := true
  maxAttempts : Nat := 10
  baseDelayMs : Nat := 1000
  maxDelayMs : Nat := 30000
deriving Repr, DecidableEq

/-- Externally visible actions of the connection manager's reconnect
machinery. -/
inductive BridgeAction where
  | reconnectScheduled (attempt delayMs : Nat)
  | terminalError
deriving Repr, DecidableEq

/-- Model of `scheduleReconnect` from `bridge.ts`: given the current attempt counter,
returns the new counter, the visible actions, and whether a reconnect timer
was armed.  The guard fires the single terminal error once the counter has
reached `maxAttempts`; otherwise the counter is bumped and the timer armed
with `min(base * 2 ^ (attempt - 1), maxDelay)`. -/
def scheduleReconnect (cfg : ReconnectCfg) (intentional : Bool)
    (attempt : Nat) : Nat × List BridgeAction × Bool :=
  if !cfg.autoReconnect || intentional then (attempt, [], false)
  else if cfg.maxAttempts ≤ attempt then (attempt, [.terminalError], false)
  else
    let a := attempt + 1
    (a, [.reconnectScheduled a (min (cfg.baseDelayMs * 2 ^ (a - 1))
      cfg.maxDelayMs)], true)

/-- The `ws.onopen` handler resets the attempt counter to 0. -/
def onOpenAttempt (_ : Nat) : Nat := 0

/-- Trace of the closed loop in which every connection attempt fails
unintentionally: each failure triggers the `onclose` handler, hence
`scheduleReconnect`; an armed timer reconnects and the next failure repeats
the cycle; when no timer is armed no further socket exists, so no further
close event can occur and the trace ends.  `fails` bounds the number of
failures considered. -/
def failRun (cfg : ReconnectCfg) : Nat → Nat → List BridgeAction
  | _, 0 => []
  | attempt, fails + 1 =>
    match scheduleReconnect cfg false attempt with
    | (a, acts, true) => acts ++ failRun cfg a fails
    | (_, acts, false) => acts

/-- Recognizer for the terminal error action. -/
def isTerminalErr : BridgeAction → Bool
  | .terminalError => true
  | _ => false

/-- Number of terminal errors surfaced in a trace. -/
def countTerminal (l : List BridgeAction) : Nat := l.countP isTerminalErr

/-- A node recorded inside a DOM mutation record. -/
structure MutNodeM where
  isElement : Bool
  tagName : String := ""
  outerHtml : Option String := none
deriving Repr, DecidableEq

/-- One raw `MutationRecord` as the observer callback receives it. -/
structure MutationRecordM where
  rtype : String
  targetIsElement : Bool := true
  targetId : String := ""
  targetTag : String := ""
  attributeName : Option String := none
  addedNodes : List MutNodeM := []
  removedNodes : List MutNodeM := []
deriving Repr, DecidableEq

/-- A bounded node summary inside a serialized mutation. -/
structure NodeSummaryM where
  ntype : String
  tagName : Option String
  html : Option String
deriving Repr, DecidableEq

/-- One serialized `DomMutation` entry. -/
structure DomMutationM where
  mutationType : String
  targetSelector : String
  attributeName : Option String
  addedNodes : List NodeSummaryM
  removedNodes : List NodeSummaryM
deriving Repr, DecidableEq

/-- Model of `DomObserver.serialize`: bounded per-node summary with the added-node
HTML truncated to 500 characters. -/
def serializeMutation (r : MutationRecordM) : DomMutationM :=
  { mutationType := r.rtype,
    targetSelector :=
      if r.targetIsElement then
        (if r.targetId != "" then "#" ++ r.targetId else r.targetTag)
      else "",
    attributeName := r.attributeName,
    addedNodes := r.addedNodes.map (fun n =>
      { ntype := if n.isElement then "element" else "text",
        tagName := if n.isElement then some n.tagName else none,
        html := n.outerHtml.map (fun s => takeChars 500 s) }),
    removedNodes := r.removedNodes.map (fun n =>
      { ntype := if n.isElement then "element" else "text",
        tagName := if n.isElement then some n.tagName else none,
        html := none }) }

/-- The mutable state of `DomObserver`: the pending buffer and whether the
single flush timer is armed. -/
structure ObserverState where
  pending : List DomMutationM
  timerActive : Bool
deriving Repr, DecidableEq

/-- Events driving the observer: a `MutationObserver` callback delivering a
burst of records, or the flush timer firing. -/
inductive ObsEvent where
  | mutate (records : List MutationRecordM)
  | timerFire
deriving Repr, DecidableEq

/-- One observer step, returning the new state and the batches emitted: the
observer callback serializes each record into `pending` and arms the timer
(`scheduleBatch` is a no-op when it is already armed); the timer flush emits
the whole buffer as one batch when it is non-empty. -/
def obsStep (s : ObserverState) : ObsEvent → ObserverState × List (List DomMutationM)
  | .mutate records =>
    ({ pending := s.pending ++ records.map serializeMutation,
       timerActive := true }, [])
  | .timerFire =>
    if s.pending.isEmpty then ({ s with timerActive := false }, [])
    else ({ pending := [], timerActive := false }, [s.pending])

/-- Run the observer over a list of events, collecting emitted batches. -/
def obsRun (s : ObserverState) : List ObsEvent → ObserverState × List (List DomMutationM)
  | [] => (s, [])
  | e :: es =>
    let p := obsStep s e
    let q := obsRun p.1 es
    (q.1, p.2 ++ q.2)

/-- Model of `NetworkHook.shouldCapture`: bridge and WebSocket traffic is excluded
before the caller filter is consulted. -/
def shouldCapture (urlFilter : Option (String → Bool)) (url : String) : Bool :=
  if strStarts url "ws://" || strStarts url "wss://" then false
  else if strIncludes url "/debug" then false
  else
    match urlFilter with
    | some f => f url
    | none => true

/-- Network telemetry emissions. -/
inductive NetEmit where
  | request (url : String)
  | response (url : String)
deriving Repr, DecidableEq

/-- The fetch wrapper's emissions for one call: nothing on the passthrough
path, otherwise one `network_request` and exactly one `network_response`
(sent on both the success and the catch path). -/
def fetchEmits (urlFilter : Option (String → Bool)) (url : String) :
    List NetEmit :=
  if shouldCapture urlFilter url then [.request url, .response url] else []

/-- The XHR `send` wrapper's emissions at send time (the response arrives
later via the `loadend` listener, which is only installed on this path). -/
def xhrSendEmits (urlFilter : Option (String → Bool)) (url : String) :
    List NetEmit :=
  if shouldCapture urlFilter url then [.request url] else []

/-- C10: the network hook never captures a request whose URL starts with
`ws://` or `wss://` or contains `/debug`, regardless of any caller filter;
for every other URL, a supplied filter decides capture, and no filter means
capture. -/
theorem network_hook_capture_policy (fOpt : Option (String → Bool))
    (url : String) :
    ((strStarts url "ws://" || strStarts url "wss://" ||
        strIncludes url "/debug") = true →
      shouldCapture fOpt url = false ∧ fetchEmits fOpt url = [] ∧
        xhrSendEmits fOpt url = []) ∧
    ((strStarts url "ws://" || strStarts url "wss://" ||
        strIncludes url "/debug") = false →
      (∀ g, fOpt = some g →
        shouldCapture fOpt url = g url ∧
          (fetchEmits fOpt url ≠ [] ↔ g url = true)) ∧
      (fOpt = none → shouldCapture fOpt url = true)) := by
  constructor
  · intro h
    have hsc : shouldCapture fOpt url = false := by
      unfold shouldCapture
      cases hA : strStarts url "ws://" <;> cases hB : strStarts url "wss://" <;>
        cases hC : strIncludes url "/debug" <;> simp_all
    exact ⟨hsc, by simp [fetchEmits, hsc], by simp [xhrSendEmits, hsc]⟩
  · intro h
    have hA : strStarts url "ws://" = false := by
      cases hx : strStarts url "ws://" <;> simp_all
    have hB : strStarts url "wss://" = false := by
      cases hx : strStarts url "wss://" <;> simp_all
    have hC : strIncludes url "/debug" = false := by
      cases hx : strIncludes url "/debug" <;> simp_all
    constructor
    · rintro g rfl
      have hsc : shouldCapture (some g) url = g url := by
        simp [shouldCapture, hA, hB, hC]
      refine ⟨hsc, ?_⟩
      cases hgu : g url <;> simp [fetchEmits, hsc, hgu]
    · rintro rfl
      simp [shouldCapture, hA, hB, hC]

/-- Witness for C10: the bridge's own WebSocket URL is never captured even
when the caller filter accepts everything. -/
theorem network_hook_capture_policy_witness :
    shouldCapture (some (fun _ => true)) "wss://localhost:3001/bridge" = false ∧
    fetchEmits (some (fun _ => true)) "wss://localhost:3001/bridge" = [] ∧
    xhrSendEmits (some (fun _ => true)) "wss://localhost:3001/bridge" = [] :=
  (network_hook_capture_policy (some (fun _ => true))
    "wss://localhost:3001/bridge").1 (by decide)

/-- C9: a `request_state` command naming a scope that is neither a built-in
browser-state scope nor a custom scope produces no message at all — no
`state_update` and no `command_result`. -/
theorem request_state_unknown_scope (env : ExecEnv) (r scope : String)
    (h0 : scope ≠ "") (h1 : scope ∉ browserStateScopes)
    (h2 : lookupCustom env scope = none) :
    execute env r (Cmd.requestState (some scope)) = [] := by
  have hbeq : (scope == "") = false := beq_eq_false_iff_ne.mpr h0
  cases hcs : env.getCustomState with
  | none => simp [execute, hbeq, h1, hcs]
  | some cs =>
    have hlk : lookupStr cs scope = none := by
      have h2' := h2
      unfold lookupCustom at h2'
      rw [hcs] at h2'
      exact h2'
    simp [execute, hbeq, h1, hcs, hlk]

/-- Concrete environment with one custom scope, for the C9 witness. -/
def envCustom : ExecEnv :=
  { dom := { elems := [] }, getCustomState := some [("cart", true)] }

/-- Witness for C9: scope `inventory` exists nowhere, so the executor stays
silent. -/
theorem request_state_unknown_scope_witness :
    execute envCustom "r9" (Cmd.requestState (some "inventory")) = [] :=
  request_state_unknown_scope envCustom "r9" "inventory" (by decide) (by decide)
    (by decide)

/-- C4, counterexample to the claim as stated: a connection with a valid
session and *no* role parameter is not closed — it is registered into the
pool with role coerced to `app`. -/
theorem relay_roleless_connection_counterexample :
    relayHandleConnection "s1" [] { sessionId := some "s1" } 7 =
      ConnOutcome.accepted
        [{ wsId := 7, role := Role.app, sessionId := "s1",
           openConn := true }] := by
  decide

/-- C4, amended: the relay closes a connection (code 4000) exactly when its
`sessionId` differs from the configured session; the role parameter is never
validated — any value other than `agent`, including an absent one, is
coerced to `app` and the client is registered. -/
theorem relay_connection_acceptance (cfgSession : String)
    (clients : List RClient) (req : ConnReq) (wsId : Nat) :
    (req.sessionId ≠ some cfgSession →
      relayHandleConnection cfgSession clients req wsId =
        .closed 4000 "Invalid session") ∧
    (req.sessionId = some cfgSession →
      relayHandleConnection cfgSession clients req wsId =
        .accepted (clients ++
          [{ wsId := wsId,
             role := if req.role == some "agent" then Role.agent else Role.app,
             sessionId := cfgSession, openConn := true }])) := by
  constructor
  · intro h
    simp [relayHandleConnection, h]
  · intro h
    simp [relayHandleConnection, h]

/-- The query parameters of an agent connection used by the C4 witness. -/
def reqAgent : ConnReq := { sessionId := some "s1", role := some "agent" }

/-- Witness for C4 (amended): a matching session with `role=agent` is
registered as an agent. -/
theorem relay_connection_acceptance_witness :
    relayHandleConnection "s1" [] reqAgent 3 =
      ConnOutcome.accepted
        [{ wsId := 3, role := Role.agent, sessionId := "s1",
           openConn := true }] :=
  ((relay_connection_acceptance "s1" [] reqAgent 3).2 rfl).trans (by decide)

/-- C2: an inbound frame that parses as JSON is delivered verbatim to
exactly the connected clients of the opposite role in the sender's session,
the sender excluded; clients of another session, the sender's own role, or
with a non-open socket receive nothing. -/
theorem relay_broadcast_routing (clients : List RClient) (senderWs : Nat)
    (frame : String) (sender : RClient)
    (hs : clients.find? (fun c => c.wsId == senderWs) = some sender) :
    ∀ w m, (w, m) ∈ relayHandleMessage clients senderWs frame true ↔
      (m = frame ∧ ∃ c, c ∈ clients ∧ c.wsId = w ∧
        c.sessionId = sender.sessionId ∧ c.role = oppositeRole sender.role ∧
        c.openConn = true ∧ c.wsId ≠ senderWs) := by
  intro w m
  unfold relayHandleMessage
  rw [hs]
  unfold broadcastToRole
  simp only [Bool.not_true, Bool.false_eq_true, if_false, List.mem_map,
    List.mem_filter, Bool.and_eq_true, beq_iff_eq, Bool.not_eq_true',
    beq_eq_false_iff_ne, ne_eq, Option.some.injEq, Prod.mk.injEq]
  constructor
  · rintro ⟨c, ⟨hc, ⟨⟨hsess, hrole⟩, hne⟩, hopen⟩, hw, hm⟩
    exact ⟨hm.symm, c, hc, hw, hsess, hrole, hopen, fun h' => hne h'.symm⟩
  · rintro ⟨rfl, c, hc, hw, hsess, hrole, hopen, hne⟩
    exact ⟨c, ⟨hc, ⟨⟨hsess, hrole⟩, fun h' => hne h'.symm⟩, hopen⟩, hw, rfl⟩

/-- Session-1 app client used by the C2 witness. -/
def appClientW : RClient :=
  { wsId := 1, role := Role.app, sessionId := "s1", openConn := true }

/-- Session-1 agent client used by the C2 witness. -/
def agentClientW : RClient :=
  { wsId := 2, role := Role.agent, sessionId := "s1", openConn := true }

/-- Session-2 agent client used by the C2 witness. -/
def otherSessionW : RClient :=
  { wsId := 3, role := Role.agent, sessionId := "s2", openConn := true }

/-- Client pool of the C2 witness. -/
def relayClientsW : List RClient := [appClientW, agentClientW, otherSessionW]

/-- Witness for C2: a frame from the app of session `s1` reaches the agent
of `s1` and does not reach the agent of `s2`. -/
theorem relay_broadcast_routing_witness :
    ((2, "f1") ∈ relayHandleMessage relayClientsW 1 "f1" true) ∧
    ¬ ((3, "f1") ∈ relayHandleMessage relayClientsW 1 "f1" true) := by
  constructor
  · exact (relay_broadcast_routing relayClientsW 1 "f1" appClientW (by decide)
        2 "f1").mpr
      ⟨rfl, agentClientW, by decide, by decide, by decide, by decide, by decide,
        by decide⟩
  · intro h
    obtain ⟨hm, c, hc, hw, hsess, hrole, hopen, hne⟩ :=
      (relay_broadcast_routing relayClientsW 1 "f1" appClientW (by decide)
        3 "f1").mp h
    have hc' : c = appClientW ∨ c = agentClientW ∨ c = otherSessionW := by
      simpa [relayClientsW] using hc
    rcases hc' with rfl | rfl | rfl
    · exact absurd hrole (by decide)
    · exact absurd hw (by decide)
    · exact absurd hsess (by decide)

/-- C3: target resolution tries `stableId`, then `selector`, then `text`,
stopping at the first stage that finds an element — a `stableId` match wins
over any text match on another element, a selector match wins over any text
match — and when every provided stage is exhausted the result is the
`TARGET_NOT_FOUND` error, never an unrelated element. -/
theorem resolve_target_order (d : Dom) (t : Target) :
    (∀ sid el, truthyOpt t.stableId = some sid → stableLookup d sid = some el →
      resolveTarget d t = .ok el) ∧
    (optStable d t = none → ∀ sel el, truthyOpt t.selector = some sel →
      selLookup d sel = some el → resolveTarget d t = .ok el) ∧
    (optStable d t = none → optSel d t = none → optText d t = none →
      resolveTarget d t = .error errTargetNotFound) := by
  refine ⟨?_, ?_, ?_⟩
  · intro sid el h1 h2
    have hst : optStable d t = some el := by
      unfold optStable
      rw [h1]
      exact h2
    unfold resolveTarget
    rw [hst]
  · intro h0 sel el h1 h2
    have hse : optSel d t = some el := by
      unfold optSel
      rw [h1]
      exact h2
    unfold resolveTarget
    rw [h0, hse]
  · intro h0 h1 h2
    unfold resolveTarget
    rw [h0, h1, h2]

/-- Element carrying `data-testid="login-btn"`, for the C3 witness. -/
def elemTestIdW : Elem :=
  { eid := 10, tag := "div", attrs := [("data-testid", "login-btn")] }

/-- Button whose text contains `login-btn`, for the C3 witness. -/
def elemTextW : Elem :=
  { eid := 11, tag := "button", textContent := "press login-btn here" }

/-- Document of the C3 witness. -/
def domOrderW : Dom := { elems := [elemTestIdW, elemTextW] }

/-- Target carrying both a `stableId` and a `text` field, for the C3
witness. -/
def targetBothW : Target :=
  { stableId := some "login-btn", text := some "login-btn" }

/-- Witness for C3: with one element matching the `stableId` and a different
element matching the `text`, resolution returns the `stableId` match. -/
theorem resolve_target_order_witness :
    resolveTarget domOrderW targetBothW = .ok elemTestIdW ∧
    textLookup domOrderW "login-btn" = some elemTextW ∧
    elemTestIdW ≠ elemTextW :=
  ⟨(resolve_target_order domOrderW targetBothW).1 "login-btn" elemTestIdW
      (by decide) (by decide),
    by decide, by decide⟩

/-- After `setAttribute`, reading the same attribute yields the new value. -/
theorem getAttr_setAttr_self (e : Elem) (k v : String) :
    getAttr (setAttr e k v) k = some v := by
  simp [getAttr, setAttr, List.find?_cons_of_pos]

/-- Lemma: `setAttribute` does not change element identity. -/
theorem setAttr_eid (e : Elem) (k v : String) : (setAttr e k v).eid = e.eid :=
  rfl

/-- When some element of the document satisfies `p` and every satisfying
element has identity `n`, the shadow-traversing query succeeds and returns an
element of identity `n`. -/
theorem deepQuery_eid_of_uniq (d : Dom) (p : Elem → Bool) (e : Elem) (n : Nat)
    (he : e ∈ d.elems) (hp : p e = true)
    (huniq : ∀ x ∈ d.elems, p x = true → x.eid = n) :
    ∃ r, deepQuery d p = some r ∧ r.eid = n := by
  unfold deepQuery
  cases hdq : docQuery d p with
  | some r =>
    unfold docQuery at hdq
    have hpr := List.find?_some hdq
    have hmem := List.mem_of_find?_eq_some hdq
    exact ⟨r, rfl, huniq r hmem (Bool.and_eq_true _ _ ▸ hpr).2⟩
  | none =>
    unfold docQuery at hdq
    have hall := List.find?_eq_none.mp hdq
    have hsh : e.inShadow = true := by
      cases hx : e.inShadow with
      | true => rfl
      | false => exact absurd (by simp [hx, hp]) (hall e he)
    have hmem2 : e ∈ d.elems.filter (fun x => x.inShadow && p x) :=
      List.mem_filter.mpr ⟨he, by simp [hsh, hp]⟩
    cases hda : deepAll d p with
    | nil =>
      have : e ∈ deepAll d p :=
        List.mem_append.mpr (Or.inr hmem2)
      rw [hda] at this
      exact absurd this (List.not_mem_nil e)
    | cons y ys =>
      have hy : y ∈ deepAll d p := by
        rw [hda]
        exact List.mem_cons_self y ys
      have hy2 : y ∈ d.elems ∧ p y = true := by
        rcases List.mem_append.mp hy with h | h
        · have := List.mem_filter.mp h
          exact ⟨this.1, (Bool.and_eq_true _ _ ▸ this.2).2⟩
        · have := List.mem_filter.mp h
          exact ⟨this.1, (Bool.and_eq_true _ _ ▸ this.2).2⟩
      exact ⟨y, rfl, huniq y hy2.1 hy2.2⟩

/-- C7, amended: for every element included in a UI tree build pass, the
item's `stableId` is persisted onto that element, and a click target carrying
only that `stableId` resolves to the same underlying element *provided* the
id is non-empty and no other element of the built document carries it (the
uniqueness the hash fallback fails to guarantee, see the counterexample). -/
theorem ui_tree_round_trip (getSid : Option (Elem → Option String)) (d : Dom)
    (e : Elem) (item : UiTreeItemM)
    (hpair : (e, item) ∈ uiTreeBuildPairs getSid d)
    (hne : item.stableId ≠ "")
    (huniq : ∀ x ∈ (uiTreeBuildDom getSid d).elems,
      getAttr x "data-debug-bridge-id" = some item.stableId → x.eid = e.eid) :
    ∃ r, resolveTarget (uiTreeBuildDom getSid d)
        { stableId := some item.stableId } = .ok r ∧ r.eid = e.eid := by
  obtain ⟨e0, he0, heq⟩ := List.mem_map.mp hpair
  have he : e0 = e := congrArg Prod.fst heq
  subst he
  have hitem : item = buildItem d.cssPathOf getSid e0 :=
    (congrArg Prod.snd heq).symm
  have hint : e0 ∈ d.elems ∧ interactiveSel e0 = true := by
    rcases List.mem_append.mp he0 with h | h
    · have := List.mem_filter.mp h
      exact ⟨this.1, (Bool.and_eq_true _ _ ▸ this.2).2⟩
    · have := List.mem_filter.mp h
      exact ⟨this.1, (Bool.and_eq_true _ _ ▸ this.2).2⟩
  have hsid : item.stableId = computeStableId d.cssPathOf getSid e0 := by
    rw [hitem]
    simp [buildItem]
  -- the built version of `e0` is in the built document and carries the id
  have hbuilt :
      setAttr e0 "data-debug-bridge-id" (computeStableId d.cssPathOf getSid e0)
        ∈ (uiTreeBuildDom getSid d).elems := by
    unfold uiTreeBuildDom
    simp only [List.mem_map]
    exact ⟨e0, hint.1, by rw [hint.2]; simp⟩
  have hattr :
      getAttr (setAttr e0 "data-debug-bridge-id"
        (computeStableId d.cssPathOf getSid e0)) "data-debug-bridge-id" =
        some item.stableId := by
    rw [hsid]
    exact getAttr_setAttr_self _ _ _
  have hp : (fun x => getAttr x "data-debug-bridge-id" == some item.stableId)
      (setAttr e0 "data-debug-bridge-id"
        (computeStableId d.cssPathOf getSid e0)) = true := by
    simp only [hattr, beq_self_eq_true]
  have huniq' : ∀ x ∈ (uiTreeBuildDom getSid d).elems,
      (fun x => getAttr x "data-debug-bridge-id" == some item.stableId) x =
        true → x.eid = e0.eid := by
    intro x hx hbx
    exact huniq x hx (beq_iff_eq.mp hbx)
  obtain ⟨r, hdq, heid⟩ := deepQuery_eid_of_uniq (uiTreeBuildDom getSid d)
    (fun x => getAttr x "data-debug-bridge-id" == some item.stableId)
    (setAttr e0 "data-debug-bridge-id"
      (computeStableId d.cssPathOf getSid e0)) e0.eid hbuilt hp huniq'
  refine ⟨r, ?_, heid⟩
  have hop : truthyOpt (some item.stableId) = some item.stableId := by
    simp [truthyOpt, hne]
  have hsl : stableLookup (uiTreeBuildDom getSid d) item.stableId = some r := by
    unfold stableLookup
    rw [hdq]
  have hos : optStable (uiTreeBuildDom getSid d)
      { stableId := some item.stableId } = some r := by
    unfold optStable
    simp only [hop]
    exact hsl
  unfold resolveTarget
  rw [hos]

/-- The identity of the element a target resolves to, when resolution
succeeds. -/
def resolvedEid (d : Dom) (t : Target) : Option Nat :=
  match resolveTarget d t with
  | .ok r => some r.eid
  | .error _ => none

/-- First of two identical-text buttons, for the C7 counterexample. -/
def btnOkA : Elem := { eid := 1, tag := "button", textContent := "OK" }

/-- Second of two identical-text buttons, for the C7 counterexample. -/
def btnOkB : Elem := { eid := 2, tag := "button", textContent := "OK" }

/-- Document with two hash-colliding buttons, for the C7 counterexample. -/
def collideDom : Dom := { elems := [btnOkA, btnOkB] }

/-- The stable id both buttons receive (role plus text hash). -/
def collideSid : String := computeStableId collideDom.cssPathOf none btnOkB

/-- C7, counterexample to the claim as stated: two buttons with the same
text receive the same hash-based stable id in one build pass, and the second
item's `stableId` then resolves to the *first* element (eid 1), not to the
element that produced the item (eid 2). -/
theorem ui_tree_round_trip_counterexample :
    ((uiTreeBuildPairs none collideDom).map
        (fun q => (q.1.eid, q.2.stableId)) =
      [(1, collideSid), (2, collideSid)]) ∧
    resolvedEid (uiTreeBuildDom none collideDom)
      { stableId := some collideSid } = some 1 := by
  decide

/-- Unique button of the C7 witness document. -/
def btnSoloW : Elem :=
  { eid := 5, tag := "button", textContent := "Submit order" }

/-- Single-button document of the C7 witness. -/
def soloDomW : Dom := { elems := [btnSoloW] }

/-- The stable id assigned to the C7 witness button. -/
def soloSidW : String := computeStableId soloDomW.cssPathOf none btnSoloW

set_option maxRecDepth 20000 in
/-- Witness for C7 (amended): with a unique stable id the round trip does
return the producing element (identity 5). -/
theorem ui_tree_round_trip_witness :
    resolvedEid (uiTreeBuildDom none soloDomW)
      { stableId := some soloSidW } = some 5 := by
  obtain ⟨r, hres, heid⟩ := ui_tree_round_trip none soloDomW btnSoloW
    (buildItem soloDomW.cssPathOf none btnSoloW)
    (by decide) (by decide) (by decide)
  have hsid : soloSidW =
      (buildItem soloDomW.cssPathOf none btnSoloW).stableId := rfl
  unfold resolvedEid
  rw [hsid]
  simp only [hres]
  rw [heid]
  rfl

/-- Lemma: `finishResult` always sends exactly one `command_result`, with the
request id, type name and elapsed duration it was given. -/
theorem finishResult_shape (r tn : String) (el : Int) (o : Except JsErr Unit) :
    ∃ s ec, finishResult r tn el o = [ExecMsg.commandResult r tn s ec el] := by
  cases o with
  | ok _ => exact ⟨true, none, rfl⟩
  | error e => exact ⟨false, some (e.code.getD "UNKNOWN_ERROR"), rfl⟩

/-- No message of `requestAllState` is a `command_result`. -/
theorem requestAllState_no_result (env : ExecEnv) (m : ExecMsg)
    (hm : m ∈ requestAllState env) : isCmdResult m = false := by
  unfold requestAllState at hm
  rcases List.mem_append.mp hm with h | h
  · obtain ⟨s, _, rfl⟩ := List.mem_map.mp h
    rfl
  · cases hcs : env.getCustomState with
    | none => rw [hcs] at h; exact absurd h (List.not_mem_nil m)
    | some cs =>
      rw [hcs] at h
      obtain ⟨p, _, rfl⟩ := List.mem_map.mp h
      rfl

/-- No message sent by a `request_state` command is a `command_result`. -/
theorem requestState_no_result (env : ExecEnv) (r : String)
    (scope : Option String) (m : ExecMsg)
    (hm : m ∈ execute env r (Cmd.requestState scope)) :
    isCmdResult m = false := by
  cases scope with
  | none =>
    simp only [execute] at hm
    exact requestAllState_no_result env m hm
  | some s =>
    simp only [execute] at hm
    by_cases hs : (s == "") = true
    · rw [if_pos hs] at hm
      exact requestAllState_no_result env m hm
    · rw [if_neg hs] at hm
      rcases List.mem_append.mp hm with h | h
      · by_cases hb : browserStateScopes.contains s = true
        · rw [if_pos hb] at h
          rcases List.mem_singleton.mp h with rfl
          rfl
        · rw [if_neg hb] at h
          exact absurd h (List.not_mem_nil m)
      · cases hcs : env.getCustomState with
        | none =>
          simp only [hcs] at h
          exact absurd h (List.not_mem_nil m)
        | some cs =>
          simp only [hcs] at h
          cases hlk : lookupStr cs s with
          | none =>
            simp only [hlk] at h
            exact absurd h (List.not_mem_nil m)
          | some truthy =>
            simp only [hlk] at h
            cases truthy with
            | true =>
              rcases List.mem_singleton.mp (by simpa using h) with rfl
              rfl
            | false => simp at h

/-- C1, amended: every command handled inside the `try` block (click, type,
navigate, evaluate, scroll, hover, select, focus, and unknown types) produces
exactly one `command_result` carrying its requestId and elapsed duration; the
four `request_*` commands return early and produce none — except a failed
screenshot capture, whose catch handler produces exactly one. -/
theorem command_result_multiplicity (env : ExecEnv) (r : String) :
    (∀ cmd, plainCmd cmd = true →
      ∃ s ec, execute env r cmd =
        [ExecMsg.commandResult r (cmdTypeName cmd) s ec env.elapsed]) ∧
    countResults (execute env r Cmd.requestUiTree) = 0 ∧
    countResults (execute env r Cmd.requestDomSnapshot) = 0 ∧
    (∀ scope, countResults (execute env r (Cmd.requestState scope)) = 0) ∧
    countResults (execute env r Cmd.requestScreenshot) =
      (if captureFails env = true then 1 else 0) := by
  refine ⟨?_, ?_, ?_, ?_, ?_⟩
  · intro cmd hp
    cases cmd with
    | click t => exact finishResult_shape r "click" env.elapsed (targetOutcome env t)
    | typeText t text =>
      exact finishResult_shape r "type" env.elapsed (targetOutcome env t)
    | navigate url => exact finishResult_shape r "navigate" env.elapsed (.ok ())
    | evaluate code =>
      cases he : env.enableEval with
      | true =>
        have hsh := finishResult_shape r "evaluate" env.elapsed env.evalOutcome
        simpa [execute, he] using hsh
      | false =>
        have hsh := finishResult_shape r "evaluate" env.elapsed
          (.error { code := some "EVAL_DISABLED", message := some "Eval disabled" })
        simpa [execute, he] using hsh
    | scroll x y => exact finishResult_shape r "scroll" env.elapsed (.ok ())
    | hover t => exact finishResult_shape r "hover" env.elapsed (targetOutcome env t)
    | selectOpt t =>
      exact finishResult_shape r "select" env.elapsed (targetOutcome env t)
    | focus t => exact finishResult_shape r "focus" env.elapsed (targetOutcome env t)
    | requestUiTree => simp [plainCmd] at hp
    | requestDomSnapshot => simp [plainCmd] at hp
    | requestScreenshot => simp [plainCmd] at hp
    | requestState scope => simp [plainCmd] at hp
    | unknownCmd t =>
      exact finishResult_shape r t env.elapsed
        (.error { code := some "INVALID_COMMAND", message := some "Unknown" })
  · rfl
  · rfl
  · intro scope
    exact List.countP_eq_zero.mpr
      (fun m hm => by simp [requestState_no_result env r scope m hm])
  · unfold captureFails
    cases hav : env.html2canvasAvailable with
    | false =>
      simp [execute, captureScreenshotMsgs, hav, countResults, isCmdResult,
        List.countP_cons, List.countP_nil]
    | true =>
      cases hco : env.captureOutcome with
      | ok u =>
        simp [execute, captureScreenshotMsgs, hav, hco, countResults,
          isCmdResult, List.countP_cons, List.countP_nil]
      | error msg =>
        simp [execute, captureScreenshotMsgs, hav, hco, countResults,
          isCmdResult, List.countP_cons, List.countP_nil]

/-- Environment over an empty document, for several concrete checks. -/
def envEmpty : ExecEnv := { dom := { elems := [] } }

/-- C1, counterexample to the claim as stated: a `request_ui_tree` command
produces a `ui_tree` message and *zero* `command_result` messages. -/
theorem command_result_counterexample :
    execute envEmpty "r1" Cmd.requestUiTree = [ExecMsg.uiTree "r1" []] ∧
    countResults (execute envEmpty "r1" Cmd.requestUiTree) = 0 := by
  exact ⟨rfl, rfl⟩

/-- Witness for C1 (amended): a `scroll` command yields exactly one result,
a `request_dom_snapshot` yields none. -/
theorem command_result_multiplicity_witness :
    countResults (execute envEmpty "rw" (Cmd.scroll 0 0)) = 1 ∧
    countResults (execute envEmpty "rw" Cmd.requestDomSnapshot) = 0 := by
  constructor
  · obtain ⟨s, ec, h⟩ :=
      (command_result_multiplicity envEmpty "rw").1 (Cmd.scroll 0 0) rfl
    rw [h]
    simp [countResults, isCmdResult, List.countP_cons, List.countP_nil]
  · exact (command_result_multiplicity envEmpty "rw").2.2.1

/-- Lemma: `resolveTarget` can only fail with the `TARGET_NOT_FOUND` error. -/
theorem resolveTarget_error (d : Dom) (t : Target) (e : JsErr)
    (h : resolveTarget d t = .error e) : e = errTargetNotFound := by
  unfold resolveTarget at h
  cases h1 : optStable d t with
  | some el => rw [h1] at h; exact Except.noConfusion h
  | none =>
    rw [h1] at h
    cases h2 : optSel d t with
    | some el => rw [h2] at h; exact Except.noConfusion h
    | none =>
      rw [h2] at h
      cases h3 : optText d t with
      | some el => rw [h3] at h; exact Except.noConfusion h
      | none =>
        rw [h3] at h
        injection h with h'
        exact h'.symm

/-- A failing target-resolving handler throws exactly `TARGET_NOT_FOUND`. -/
theorem targetOutcome_error (env : ExecEnv) (t : Target) (e : JsErr)
    (h : targetOutcome env t = .error e) : e = errTargetNotFound := by
  unfold targetOutcome at h
  cases hr : resolveTarget env.dom t with
  | ok el =>
    simp only [hr] at h
    exact Except.noConfusion h
  | error e2 =>
    simp only [hr] at h
    injection h with h'
    exact h' ▸ resolveTarget_error env.dom t e2 hr

/-- Characterization of the one `command_result` a `finishResult` call
emits. -/
theorem finishResult_mem_policy (r tn : String) (el : Int) (hel : 0 ≤ el)
    (o : Except JsErr Unit) (rid rt : String) (s : Bool) (ec : Option String)
    (dur : Int)
    (hm : ExecMsg.commandResult rid rt s ec dur ∈ finishResult r tn el o) :
    0 ≤ dur ∧ (s = false → ec.isSome = true) ∧
    (∀ c, ec = some c →
      ∃ e, o = .error e ∧ e.code.getD "UNKNOWN_ERROR" = c) := by
  cases o with
  | ok u =>
    simp only [finishResult, List.mem_singleton,
      ExecMsg.commandResult.injEq] at hm
    obtain ⟨-, -, hs, hec, hdur⟩ := hm
    subst hs; subst hec; subst hdur
    refine ⟨hel, ?_, ?_⟩
    · intro hcontra; exact absurd hcontra (by simp)
    · intro c hc; exact absurd hc (by simp)
  | error e =>
    simp only [finishResult, List.mem_singleton,
      ExecMsg.commandResult.injEq] at hm
    obtain ⟨-, -, hs, hec, hdur⟩ := hm
    subst hs; subst hec; subst hdur
    refine ⟨hel, fun _ => rfl, ?_⟩
    intro c hc
    exact ⟨e, rfl, Option.some.inj hc⟩

/-- A target-resolving command's failure code is in the closed enum. -/
theorem target_cmd_policy (env : ExecEnv) (tn : String) (t : Target)
    (hel : 0 ≤ env.elapsed) (r rid rt : String) (s : Bool)
    (ec : Option String) (dur : Int)
    (hm : ExecMsg.commandResult rid rt s ec dur ∈
      finishResult r tn env.elapsed (targetOutcome env t)) :
    0 ≤ dur ∧ (s = false → ec.isSome = true) ∧
    (∀ c, ec = some c → c ∈ errorCodeEnum) := by
  obtain ⟨h1, h2, h3⟩ :=
    finishResult_mem_policy r tn env.elapsed hel (targetOutcome env t)
      rid rt s ec dur hm
  refine ⟨h1, h2, ?_⟩
  intro c hc
  obtain ⟨e, he, hcode⟩ := h3 c hc
  have he2 := targetOutcome_error env t e he
  subst he2
  rw [show errTargetNotFound.code.getD "UNKNOWN_ERROR" = "TARGET_NOT_FOUND"
    from rfl] at hcode
  subst hcode
  simp [errorCodeEnum]

/-- C6, amended: every `command_result` has `duration ≥ 0` and, on failure, a
populated `error.code`; the executor's own throw sites stay inside the closed
`ErrorCode` enum, but a failed screenshot capture reports
`SCREENSHOT_FAILED` (outside the enum) and an exception object carrying its
own `code` field has that code forwarded verbatim (the catch block only
defaults a missing code to UNKNOWN_ERROR), so `evaluate` can surface any
caller-thrown string. -/
theorem error_code_policy (env : ExecEnv) (r : String) (cmd : Cmd)
    (hel : 0 ≤ env.elapsed) :
    (∀ rid rt s ec dur,
      ExecMsg.commandResult rid rt s ec dur ∈ execute env r cmd →
        0 ≤ dur ∧ (s = false → ec.isSome = true) ∧
        (∀ c, ec = some c → c ∈ errorCodeEnum ∨ c = "SCREENSHOT_FAILED" ∨
          (∃ jc, env.evalOutcome = .error jc ∧ jc.code = some c))) ∧
    (captureFails env = true →
      execute env r Cmd.requestScreenshot =
        [ExecMsg.commandResult r "request_screenshot" false
          (some "SCREENSHOT_FAILED") 0]) := by
  constructor
  · intro rid rt s ec dur hm
    cases cmd with
    | click t =>
      obtain ⟨h1, h2, h3⟩ := target_cmd_policy env "click" t hel r rid rt s ec dur hm
      exact ⟨h1, h2, fun c hc => Or.inl (h3 c hc)⟩
    | typeText t text =>
      obtain ⟨h1, h2, h3⟩ := target_cmd_policy env "type" t hel r rid rt s ec dur hm
      exact ⟨h1, h2, fun c hc => Or.inl (h3 c hc)⟩
    | hover t =>
      obtain ⟨h1, h2, h3⟩ := target_cmd_policy env "hover" t hel r rid rt s ec dur hm
      exact ⟨h1, h2, fun c hc => Or.inl (h3 c hc)⟩
    | selectOpt t =>
      obtain ⟨h1, h2, h3⟩ := target_cmd_policy env "select" t hel r rid rt s ec dur hm
      exact ⟨h1, h2, fun c hc => Or.inl (h3 c hc)⟩
    | focus t =>
      obtain ⟨h1, h2, h3⟩ := target_cmd_policy env "focus" t hel r rid rt s ec dur hm
      exact ⟨h1, h2, fun c hc => Or.inl (h3 c hc)⟩
    | navigate url =>
      obtain ⟨h1, h2, h3⟩ :=
        finishResult_mem_policy r "navigate" env.elapsed hel (.ok ())
          rid rt s ec dur hm
      refine ⟨h1, h2, fun c hc => ?_⟩
      obtain ⟨e, he, -⟩ := h3 c hc
      exact Except.noConfusion he
    | scroll x y =>
      obtain ⟨h1, h2, h3⟩ :=
        finishResult_mem_policy r "scroll" env.elapsed hel (.ok ())
          rid rt s ec dur hm
      refine ⟨h1, h2, fun c hc => ?_⟩
      obtain ⟨e, he, -⟩ := h3 c hc
      exact Except.noConfusion he
    | unknownCmd t =>
      obtain ⟨h1, h2, h3⟩ :=
        finishResult_mem_policy r t env.elapsed hel
          (.error { code := some "INVALID_COMMAND", message := some "Unknown" })
          rid rt s ec dur hm
      refine ⟨h1, h2, fun c hc => ?_⟩
      obtain ⟨e, he, hcode⟩ := h3 c hc
      injection he with he'
      rw [← he'] at hcode
      simp only [Option.getD_some] at hcode
      subst hcode
      exact Or.inl (by simp [errorCodeEnum])
    | evaluate code =>
      cases hev : env.enableEval with
      | false =>
        have hm2 : ExecMsg.commandResult rid rt s ec dur ∈
            finishResult r "evaluate" env.elapsed
              (.error { code := some "EVAL_DISABLED", message := some "Eval disabled" }) := by
          simpa [execute, hev] using hm
        obtain ⟨h1, h2, h3⟩ :=
          finishResult_mem_policy r "evaluate" env.elapsed hel _
            rid rt s ec dur hm2
        refine ⟨h1, h2, fun c hc => ?_⟩
        obtain ⟨e, he, hcode⟩ := h3 c hc
        injection he with he'
        rw [← he'] at hcode
        simp only [Option.getD_some] at hcode
        subst hcode
        exact Or.inl (by simp [errorCodeEnum])
      | true =>
        have hm2 : ExecMsg.commandResult rid rt s ec dur ∈
            finishResult r "evaluate" env.elapsed env.evalOutcome := by
          simpa [execute, hev] using hm
        obtain ⟨h1, h2, h3⟩ :=
          finishResult_mem_policy r "evaluate" env.elapsed hel _
            rid rt s ec dur hm2
        refine ⟨h1, h2, fun c hc => ?_⟩
        obtain ⟨e, he, hcode⟩ := h3 c hc
        cases hcd : e.code with
        | some c0 =>
          rw [hcd] at hcode
          simp only [Option.getD_some] at hcode
          subst hcode
          exact Or.inr (Or.inr ⟨e, he, hcd⟩)
        | none =>
          rw [hcd] at hcode
          simp only [Option.getD_none] at hcode
          subst hcode
          exact Or.inl (by simp [errorCodeEnum])
    | requestUiTree =>
      simp only [execute, List.mem_singleton] at hm
      exact ExecMsg.noConfusion hm
    | requestDomSnapshot =>
      simp only [execute, List.mem_singleton] at hm
      exact ExecMsg.noConfusion hm
    | requestState scope =>
      have := requestState_no_result env r scope _ hm
      simp [isCmdResult] at this
    | requestScreenshot =>
      have hm2 : ExecMsg.commandResult rid rt s ec dur ∈
          captureScreenshotMsgs env r := hm
      unfold captureScreenshotMsgs at hm2
      cases hav : env.html2canvasAvailable with
      | false =>
        rw [hav] at hm2
        simp only [Bool.false_eq_true, if_false, List.mem_singleton] at hm2
        exact ExecMsg.noConfusion hm2
      | true =>
        rw [hav] at hm2
        simp only [if_true] at hm2
        cases hco : env.captureOutcome with
        | ok u =>
          simp only [hco, List.mem_singleton] at hm2
          exact ExecMsg.noConfusion hm2
        | error msg =>
          simp only [hco, List.mem_singleton,
            ExecMsg.commandResult.injEq] at hm2
          obtain ⟨-, -, hs, hec, hdur⟩ := hm2
          subst hs; subst hec; subst hdur
          refine ⟨by simp, fun _ => rfl, fun c hc => ?_⟩
          exact Or.inr (Or.inl (Option.some.inj hc).symm)
  · intro hcf
    unfold captureFails at hcf
    cases hav : env.html2canvasAvailable with
    | false => rw [hav] at hcf; simp at hcf
    | true =>
      cases hco : env.captureOutcome with
      | ok u => rw [hav, hco] at hcf; simp at hcf
      | error msg =>
        simp only [execute, captureScreenshotMsgs, hav, if_true, hco]

/-- Environment whose screenshot capture throws, for C6. -/
def envShotFail : ExecEnv :=
  { dom := { elems := [] }, html2canvasAvailable := true,
    captureOutcome := .error "capture failed" }

/-- C6, counterexample to the claim as stated: a failed screenshot capture
produces a `success:false` result whose code `SCREENSHOT_FAILED` is *not* in
the closed `ErrorCode` enum. -/
theorem error_code_counterexample :
    execute envShotFail "r2" Cmd.requestScreenshot =
      [ExecMsg.commandResult "r2" "request_screenshot" false
        (some "SCREENSHOT_FAILED") 0] ∧
    "SCREENSHOT_FAILED" ∉ errorCodeEnum := by
  exact ⟨rfl, by decide⟩

/-- Witness for C6 (amended): the screenshot catch path at a concrete
environment, via the amended theorem. -/
theorem error_code_policy_witness :
    execute envShotFail "rs" Cmd.requestScreenshot =
      [ExecMsg.commandResult "rs" "request_screenshot" false
        (some "SCREENSHOT_FAILED") 0] :=
  (error_code_policy envShotFail "rs" Cmd.requestScreenshot
    (by decide)).2 (by decide)

/-- Closed form of the all-failures reconnect trace, generalized over the
starting attempt counter. -/
theorem failRun_closed_form (cfg : ReconnectCfg)
    (hauto : cfg.autoReconnect = true) :
    ∀ fails j, j ≤ cfg.maxAttempts →
      failRun cfg j fails =
        (List.range (min fails (cfg.maxAttempts - j))).map
          (fun i => BridgeAction.reconnectScheduled (j + i + 1)
            (min (cfg.baseDelayMs * 2 ^ (j + i)) cfg.maxDelayMs)) ++
        (if cfg.maxAttempts - j < fails then [BridgeAction.terminalError]
          else []) := by
  intro fails
  induction fails with
  | zero =>
    intro j hj
    simp [failRun]
  | succ f ih =>
    intro j hj
    by_cases hje : cfg.maxAttempts ≤ j
    · have hj0 : cfg.maxAttempts - j = 0 := Nat.sub_eq_zero_of_le hje
      unfold failRun
      simp [scheduleReconnect, hauto, hje, hj0]
    · have hjlt : j < cfg.maxAttempts := Nat.lt_of_not_le hje
      unfold failRun
      simp only [scheduleReconnect, hauto, Bool.not_true, Bool.false_or,
        Bool.false_eq_true, if_false, hje, if_neg hje]
      rw [ih (j + 1) hjlt]
      have hmin : min (f + 1) (cfg.maxAttempts - j) =
          (min f (cfg.maxAttempts - (j + 1))) + 1 := by omega
      have hiff : (cfg.maxAttempts - j < f + 1) ↔
          (cfg.maxAttempts - (j + 1) < f) := by omega
      rw [hmin, List.range_succ_eq_map, List.map_cons, List.map_map,
        if_congr hiff rfl rfl]
      simp only [Nat.add_zero, Nat.add_sub_cancel, List.cons_append]
      congr 1
      simp only [List.nil_append]
      congr 1
      apply List.map_congr_left
      intro i hi
      have e1 : j + 1 + i = j + (i + 1) := by omega
      simp [Function.comp, Nat.succ_eq_add_one, e1]

/-- C5: in the all-failures run starting from attempt counter 0, the n-th
reconnect is scheduled with delay exactly `min(base * 2 ^ (n-1), maxDelay)`,
attempts stop at `maxAttempts`, exactly one terminal error is surfaced once
they are exhausted (and none before), and a successful open resets the
attempt counter to 0. -/
theorem reconnect_backoff_policy (cfg : ReconnectCfg) (a fails : Nat)
    (hauto : cfg.autoReconnect = true) :
    failRun cfg 0 fails =
      (List.range (min fails cfg.maxAttempts)).map
        (fun i => BridgeAction.reconnectScheduled (i + 1)
          (min (cfg.baseDelayMs * 2 ^ i) cfg.maxDelayMs)) ++
      (if cfg.maxAttempts < fails then [BridgeAction.terminalError]
        else []) ∧
    countTerminal (failRun cfg 0 fails) =
      (if cfg.maxAttempts < fails then 1 else 0) ∧
    onOpenAttempt a = 0 := by
  have h := failRun_closed_form cfg hauto fails 0 (Nat.zero_le _)
  simp only [Nat.sub_zero, Nat.zero_add] at h
  refine ⟨h, ?_, rfl⟩
  unfold countTerminal
  rw [h, List.countP_append, List.countP_map]
  have hz : List.countP
      ((fun x => isTerminalErr x) ∘ (fun i => BridgeAction.reconnectScheduled
        (i + 1) (min (cfg.baseDelayMs * 2 ^ i) cfg.maxDelayMs)))
      (List.range (min fails cfg.maxAttempts)) = 0 := by
    apply List.countP_eq_zero.mpr
    intro i hi
    simp [isTerminalErr]
  rw [hz]
  by_cases hc : cfg.maxAttempts < fails
  · simp [hc, isTerminalErr]
  · simp [hc]

/-- Reconnect configuration with two attempts, for the C5 witness. -/
def cfgReconnW : ReconnectCfg :=
  { autoReconnect := true, maxAttempts := 2, baseDelayMs := 1000,
    maxDelayMs := 30000 }

/-- Witness for C5: four straight failures schedule 1000 ms then 2000 ms,
then surface exactly one terminal error and stop. -/
theorem reconnect_backoff_policy_witness :
    failRun cfgReconnW 0 4 =
      [BridgeAction.reconnectScheduled 1 1000,
        BridgeAction.reconnectScheduled 2 2000,
        BridgeAction.terminalError] ∧
    countTerminal (failRun cfgReconnW 0 4) = 1 := by
  have h := reconnect_backoff_policy cfgReconnW 0 4 rfl
  exact ⟨h.1.trans (by decide), (h.2.1).trans (by decide)⟩

/-- Running the observer over concatenated event lists concatenates the
emitted batches. -/
theorem obsRun_append (s : ObserverState) (l1 l2 : List ObsEvent) :
    obsRun s (l1 ++ l2) =
      ((obsRun (obsRun s l1).1 l2).1,
        (obsRun s l1).2 ++ (obsRun (obsRun s l1).1 l2).2) := by
  induction l1 generalizing s with
  | nil => simp [obsRun]
  | cons e es ih => simp [obsRun, ih, List.append_assoc]

/-- Accumulation: observer callbacks only append serialized records to the
pending buffer and arm the timer; they emit nothing. -/
theorem obsRun_mutates (s : ObserverState)
    (bursts : List (List MutationRecordM)) :
    obsRun s (bursts.map ObsEvent.mutate) =
      ({ pending := s.pending ++ bursts.flatten.map serializeMutation,
         timerActive := (s.timerActive || !bursts.isEmpty) }, []) := by
  induction bursts generalizing s with
  | nil => simp [obsRun]
  | cons b bs ih =>
    simp [obsRun, obsStep, ih, List.map_append, List.append_assoc]

/-- C8: N ≥ 1 mutation records arriving (in any burst pattern) inside one
batching window are flushed by the single timer as exactly one
`dom_mutations` batch containing all N serialized entries in order, and
nothing is emitted before the flush — no mutation is ever delivered
individually. -/
theorem dom_mutation_batching (bursts : List (List MutationRecordM))
    (h : bursts.flatten ≠ []) :
    (obsRun { pending := [], timerActive := false }
        (bursts.map ObsEvent.mutate ++ [ObsEvent.timerFire])).2 =
      [bursts.flatten.map serializeMutation] ∧
    (obsRun { pending := [], timerActive := false }
        (bursts.map ObsEvent.mutate)).2 = [] := by
  have hm := obsRun_mutates { pending := [], timerActive := false } bursts
  refine ⟨?_, by rw [hm]⟩
  rw [obsRun_append, hm]
  have hne : (bursts.flatten.map serializeMutation).isEmpty = false := by
    cases hj : bursts.flatten with
    | nil => exact absurd hj h
    | cons x xs => simp [hj]
  have hcond : ¬ ∀ a ∈ bursts, a = [] := fun hall =>
    h (List.flatten_eq_nil_iff.mpr hall)
  simp [obsRun, obsStep, hne, hcond]

/-- A child-list mutation record, for the C8 witness. -/
def recChildW : MutationRecordM := { rtype := "childList", targetTag := "div" }

/-- An attribute mutation record, for the C8 witness. -/
def recAttrW : MutationRecordM :=
  { rtype := "attributes", targetTag := "span",
    attributeName := some "data-x" }

/-- Two bursts inside one batching window, for the C8 witness. -/
def burstsW : List (List MutationRecordM) := [[recChildW, recAttrW], [recChildW]]

/-- Witness for C8: three records across two observer callbacks are flushed
as exactly one batch with three entries. -/
theorem dom_mutation_batching_witness :
    (obsRun { pending := [], timerActive := false }
        (burstsW.map ObsEvent.mutate ++ [ObsEvent.timerFire])).2 =
      [burstsW.flatten.map serializeMutation] ∧
    (burstsW.flatten.map serializeMutation).length = 3 :=
  ⟨(dom_mutation_batching burstsW (by decide)).1, by decide⟩
